import Mathlib

/-!
Shallow embedding of the bonos-api refresh-scheduler core
(services/cache.py, services/docta_bonds.py, jobs/scheduler.py).

Conventions of the embedding:
* Python floats (timestamps, TTLs, prices, percentage offsets) are modelled
  as exact rationals; IEEE rounding is not modelled.
* Python dicts with string keys are association lists with update-or-append
  assignment (dictInsert) and first-match lookup (dictGet).
* Upstream HTTP calls are oracles: a function from the call arguments to
  either a transport exception (Except.error) or an HttpResp value.
* Async fan-outs are modelled as left folds over the symbol list; the
  per-symbol dict writes commute across distinct keys, so the fold order is
  the observable content of the gather.
* Exceptions are Except String; the exact message text of library-raised
  errors (httpx raise for status) is rendered by statusErrorMsg.
-/

namespace BonosApi

/-- JSON-like payload values exchanged with the providers
(Python None / bool / number / str / list / dict). -/
inductive JVal where
  | jnull : JVal
  | jbool : Bool → JVal
  | jnum : ℚ → JVal
  | jstr : String → JVal
  | jlist : List JVal → JVal
  | jobj : List (String × JVal) → JVal


/-- Python str-keyed dict lookup (d.get(k)) on an association list. -/
def dictGet {α : Type} : List (String × α) → String → Option α
  | [], _ => none
  | (k, v) :: rest, key => if k = key then some v else dictGet rest key

/-- Python dict assignment d[k] = v: update in place or append. -/
def dictInsert {α : Type} : List (String × α) → String → α → List (String × α)
  | [], key, v => [(key, v)]
  | (k, w) :: rest, key, v =>
      if k = key then (key, v) :: rest else (k, w) :: dictInsert rest key v

theorem dictGet_insert_self {α : Type} (m : List (String × α)) (k : String) (v : α) :
    dictGet (dictInsert m k v) k = some v := by
  induction m with
  | nil => simp [dictInsert, dictGet]
  | cons hd tl ih =>
      obtain ⟨k0, v0⟩ := hd
      by_cases h : k0 = k
      · simp [dictInsert, dictGet, h]
      · simp [dictInsert, dictGet, h, ih]

theorem dictGet_insert_ne {α : Type} (m : List (String × α)) (k key : String) (v : α)
    (h : k ≠ key) : dictGet (dictInsert m k v) key = dictGet m key := by
  induction m with
  | nil => simp [dictInsert, dictGet, h]
  | cons hd tl ih =>
      obtain ⟨k0, v0⟩ := hd
      by_cases h0 : k0 = k
      · subst h0
        simp [dictInsert, dictGet, h]
      · simp [dictInsert, dictGet, h0, ih]

/-- One normalized market row, as written by the market refresh
(scheduler.py, normalize): the symbol field, the close field c
(passed through verbatim, possibly None), and the remaining
passed-through / classification fields. -/
structure Row where
  symbol : Option String
  c : Option JVal
  extra : List (String × JVal)


/-- The market_summary cache payload (scheduler.py, _refresh_market). -/
structure MarketPayload where
  timestamp_utc : String
  notes : List Row
  corp : List Row
  bonds : List Row
  counts : ℕ × ℕ × ℕ


/-- The refresh result envelope \x7btimestamp_utc, data, errors\x7d used by the
yields / cashflow / pricer tiers. -/
structure Envelope where
  timestamp_utc : String
  data : List (String × JVal)
  errors : List (String × String)


/-- The historical-tier envelope additionally records the fixed date range. -/
structure HistEnvelope where
  timestamp_utc : String
  from_date : String
  to_date : String
  data : List (String × JVal)
  errors : List (String × String)


/-- A value stored in the process-wide cache.  The Python cache stores
untyped payloads; the scheduler only ever stores a market snapshot under
the market key, envelopes under the tier keys, and the externally
populated credentials dict under the config key, so the embedding types
the union of those shapes. -/
inductive CVal where
  | market : MarketPayload → CVal
  | env : Envelope → CVal
  | henv : HistEnvelope → CVal
  | config (client_id client_secret scope : Option String) : CVal


/-- A cache slot: \x7b"value": ..., "expires_at": ...\x7d (services/cache.py). -/
structure CacheEntry where
  value : CVal
  expires_at : ℚ


/-- The in-memory cache _CACHE : \x7bkey : \x7bvalue, expires_at\x7d\x7d. -/
abbrev CacheState : Type := List (String × CacheEntry)

namespace CACHE_KEYS

def DOCTA_CONFIG : String := "docta_config"

def MARKET_SUMMARY : String := "market_summary"

def DOCTA_YIELDS : String := "docta_yields"

def DOCTA_CASHFLOWS : String := "docta_cashflows"

def DOCTA_HISTORICAL : String := "docta_historical"

def DOCTA_PRICER : String := "docta_pricer"

end CACHE_KEYS

/-- cache_set (services/cache.py line 19): store value with
expires_at = now + ttl_seconds, overwriting any prior entry. -/
def cache_set (st : CacheState) (now : ℚ) (key : String) (value : CVal)
    (ttl_seconds : ℚ) : CacheState :=
  dictInsert st key ⟨value, now + ttl_seconds⟩

/-- cache_get (services/cache.py line 22): return the stored value unless
the key is missing or now is strictly past expires_at.  The function only
reads the store, so the resulting cache state is returned unchanged (the
expired entry is not evicted). -/
def cache_get (st : CacheState) (now : ℚ) (key : String) :
    Option CVal × CacheState :=
  match dictGet st key with
  | none => (none, st)
  | some item => if item.expires_at < now then (none, st) else (some item.value, st)

/-- cache_is_fresh (services/cache.py line 30). -/
def cache_is_fresh (st : CacheState) (now : ℚ) (key : String) : Bool :=
  match dictGet st key with
  | none => false
  | some item => decide (now ≤ item.expires_at)

/-- Claim C1: after cache_set(k, v, ttl) at time t0 with ttl at least 0,
cache_get(k) returns v at every instant now with now at most t0 + ttl,
returns absent at every instant with now past t0 + ttl, and a get on the
expired entry does not evict it: the store still maps k to the entry. -/
theorem cache_set_get_ttl (st : CacheState) (t0 now ttl : ℚ) (k : String) (v : CVal)
    (_httl : 0 ≤ ttl) :
    (now ≤ t0 + ttl →
      cache_get (cache_set st t0 k v ttl) now k = (some v, cache_set st t0 k v ttl))
    ∧ (t0 + ttl < now →
      cache_get (cache_set st t0 k v ttl) now k = (none, cache_set st t0 k v ttl)
      ∧ dictGet (cache_set st t0 k v ttl) k = some ⟨v, t0 + ttl⟩) := by
  refine ⟨fun h => ?_, fun h => ⟨?_, ?_⟩⟩
  · have hnot : ¬ ((t0 + ttl) < now) := not_lt.mpr h
    simp [cache_get, cache_set, dictGet_insert_self, hnot]
  · simp [cache_get, cache_set, dictGet_insert_self, h]
  · simp [cache_set, dictGet_insert_self]

/-- Witness for C1 at a concrete input: key "k", a concrete config value,
ttl 10 set at time 0, read at times 5 (hit) and 11 (expired, not evicted). -/
theorem cache_set_get_ttl_witness :
    ((0 : ℚ) ≤ 10)
    ∧ cache_get (cache_set [] 0 "k" (CVal.config none none none) 10) 5 "k"
        = (some (CVal.config none none none), cache_set [] 0 "k" (CVal.config none none none) 10)
    ∧ cache_get (cache_set [] 0 "k" (CVal.config none none none) 10) 11 "k"
        = (none, cache_set [] 0 "k" (CVal.config none none none) 10)
    ∧ dictGet (cache_set [] 0 "k" (CVal.config none none none) 10) "k"
        = some ⟨CVal.config none none none, (0 : ℚ) + 10⟩ := by
  refine ⟨by norm_num, ?_, ?_, ?_⟩
  · exact (cache_set_get_ttl [] 0 5 10 "k" (CVal.config none none none) (by norm_num)).1
      (by norm_num)
  · exact ((cache_set_get_ttl [] 0 11 10 "k" (CVal.config none none none) (by norm_num)).2
      (by norm_num)).1
  · exact ((cache_set_get_ttl [] 0 11 10 "k" (CVal.config none none none) (by norm_num)).2
      (by norm_num)).2

/-- Python str.upper(), written by structural recursion over the character
list so that concrete inputs reduce inside the kernel. -/
def pyUpper (s : String) : String :=
  ⟨s.data.map Char.toUpper⟩

/-- Python str.strip(): drop leading and trailing whitespace. -/
def pyTrim (s : String) : String :=
  ⟨((s.data.dropWhile Char.isWhitespace).reverse.dropWhile Char.isWhitespace).reverse⟩

def digitsVal (cs : List Char) : ℕ :=
  cs.foldl (fun a c => a * 10 + (c.toNat - 48)) 0

/-- Python float(str) on the plain decimal forms: optional surrounding
whitespace, optional sign, digits with at most one decimal point.
Exotic accepted forms (exponents, inf, nan, underscores) are outside the
modelled input space; no claim depends on them. -/
def parseDecimal (s : String) : Option ℚ :=
  let t := (pyTrim s).data
  let sgnBody : ℚ × List Char :=
    match t with
    | '-' :: rest => (-1, rest)
    | '+' :: rest => (1, rest)
    | cs => (1, cs)
  let sgn := sgnBody.1
  let body := sgnBody.2
  let ip := body.takeWhile (fun c => c ≠ '.')
  let rest := body.dropWhile (fun c => c ≠ '.')
  if ip.all Char.isDigit then
    match rest with
    | [] => if ip = [] then none else some (sgn * (digitsVal ip : ℚ))
    | _ :: fp =>
        if fp.all Char.isDigit ∧ (ip ≠ [] ∨ fp ≠ []) then
          some (sgn * ((digitsVal ip : ℚ) + (digitsVal fp : ℚ) / (10 : ℚ) ^ fp.length))
        else none
  else none

/-- Python float(x) as applied by find_price to the close field: numbers
pass through, booleans coerce to 0 / 1, strings parse as decimals, any
other value raises (modelled as none, which the enclosing except-clause
turns into a None return). -/
def pyFloat : JVal → Option ℚ
  | .jnum q => some q
  | .jbool b => some (if b then 1 else 0)
  | .jstr s => parseDecimal s
  | .jnull => none
  | .jlist _ => none
  | .jobj _ => none

/-- market.get(group) or [] inside find_price (scheduler.py line 194):
the three group keys of the market payload, anything else is empty. -/
def marketGroup (m : MarketPayload) (group : String) : List Row :=
  if group = "notes" then m.notes
  else if group = "corp" then m.corp
  else if group = "bonds" then m.bonds
  else []

/-- The inner row loop of find_price (scheduler.py lines 194-200): on the
first row whose upper-cased symbol equals the upper-cased needle the
function RETURNS (some result), where the result is float(c) when c is
present and coercible and None otherwise; if no row of this group matches
the scan continues (none). -/
def scanRows (rows : List Row) (symU : String) : Option (Option ℚ) :=
  match rows with
  | [] => none
  | r :: rest =>
      if (pyUpper (r.symbol.getD "") == symU) then
        some (match r.c with
              | none => none
              | some cv => pyFloat cv)
      else scanRows rest symU

/-- The outer group loop of find_price over ["notes", "corp", "bonds"]. -/
def findPriceGroups (market : MarketPayload) (symU : String) : List String → Option ℚ
  | [] => none
  | g :: gs =>
      match scanRows (marketGroup market g) symU with
      | some res => res
      | none => findPriceGroups market symU gs

/-- find_price (scheduler.py lines 192-201). -/
def find_price (market : MarketPayload) (sym : String) : Option ℚ :=
  findPriceGroups market (pyUpper sym) ["notes", "corp", "bonds"]

/-- Modelled from the words of claim C4 (for comparison with find_price):
scan the three groups linearly and return the FIRST NUMERIC match, i.e.
the first row that matches the symbol and whose close coerces to a float,
or absent when no such row exists. -/
def spec_first_numeric_match (m : MarketPayload) (sym : String) : Option ℚ :=
  (m.notes ++ m.corp ++ m.bonds).findSome? fun r =>
    if (pyUpper (r.symbol.getD "") == pyUpper sym) then r.c.bind pyFloat else none

/-- A market snapshot on which find_price and the claimed first-numeric-match
semantics disagree: the notes row for AL30 has close None, the bonds row for
AL30 has close 100. -/
def marketCE : MarketPayload :=
  { timestamp_utc := "2026-01-01T00:00:00"
    notes := [{ symbol := some "AL30", c := none, extra := [] }]
    corp := []
    bonds := [{ symbol := some "AL30", c := some (JVal.jnum 100), extra := [] }]
    counts := (1, 0, 1) }

/-- Claim C4, counterexample: find_price returns at the first SYMBOL match
(here the notes row, whose close is None), so it yields absent although a
numeric match for AL30 exists in the bonds group; the claimed
first-numeric-match semantics yields 100. -/
theorem find_price_counterexample :
    find_price marketCE "AL30" = none
    ∧ spec_first_numeric_match marketCE "AL30" = some 100
    ∧ find_price marketCE "AL30" ≠ spec_first_numeric_match marketCE "AL30" := by
  refine ⟨by decide, by decide, by decide⟩

theorem scanRows_eq_find? (rows : List Row) (symU : String) :
    scanRows rows symU
      = (rows.find? (fun r => pyUpper (r.symbol.getD "") == symU)).map
          (fun r => r.c.bind pyFloat) := by
  induction rows with
  | nil => simp [scanRows]
  | cons r rest ih =>
      by_cases h : (pyUpper (r.symbol.getD "") == symU) = true
      · simp [scanRows, List.find?, h]
        cases r.c <;> simp [Option.bind]
      · simp only [Bool.not_eq_true] at h
        simp [scanRows, List.find?, h, ih]

/-- Claim C4, amended: find_price scans notes, corp, bonds linearly and
returns at the FIRST row whose symbol matches (case-insensitively): its
close coerced to float when coercible, absent otherwise; rows after the
first symbol match (in particular later numeric matches) are never
consulted, and absent is returned when no row matches at all. -/
theorem find_price_first_symbol_match (m : MarketPayload) (sym : String) :
    find_price m sym
      = ((m.notes ++ m.corp ++ m.bonds).find?
            (fun r => pyUpper (r.symbol.getD "") == pyUpper sym)).bind
          (fun r => r.c.bind pyFloat) := by
  cases h1 : m.notes.find? (fun r => pyUpper (r.symbol.getD "") == pyUpper sym) with
  | some r =>
      simp [find_price, findPriceGroups, marketGroup, scanRows_eq_find?,
        List.find?_append, h1, Option.or]
  | none =>
      cases h2 : m.corp.find? (fun r => pyUpper (r.symbol.getD "") == pyUpper sym) with
      | some r =>
          simp [find_price, findPriceGroups, marketGroup, scanRows_eq_find?,
            List.find?_append, h1, h2, Option.or]
      | none =>
          cases h3 : m.bonds.find? (fun r => pyUpper (r.symbol.getD "") == pyUpper sym) with
          | some r =>
              simp [find_price, findPriceGroups, marketGroup, scanRows_eq_find?,
                List.find?_append, h1, h2, h3, Option.or]
          | none =>
              simp [find_price, findPriceGroups, marketGroup, scanRows_eq_find?,
                List.find?_append, h1, h2, h3, Option.or]

/-- An HTTP response as observed by the docta client functions: status
code, parsed json body, and raw text. -/
structure HttpResp where
  status : ℕ
  jsonBody : JVal
  text : String

def is2xx (n : ℕ) : Bool := decide (200 ≤ n) && decide (n ≤ 299)

/-- Model-level rendering of the message of the exception that
httpx raise for status throws on a non-2xx response. -/
def statusErrorMsg (n : ℕ) : String := "HTTP status error " ++ toString n

/-- docta_get_cashflow (services/docta_bonds.py lines 9-16), as a function
of the transport outcome: 404 maps to None, any other non-2xx status is
raised, a 2xx body is returned.  The token, symbol and the fixed
nominal_units=100.0 request parameter only shape the HTTP exchange, which
the oracle argument stands for. -/
def docta_get_cashflow (r : Except String HttpResp) : Except String (Option JVal) :=
  match r with
  | .error e => .error e
  | .ok resp =>
      if resp.status = 404 then .ok none
      else if is2xx resp.status then .ok (some resp.jsonBody)
      else .error (statusErrorMsg resp.status)

/-- docta_get_yields_intraday (services/docta_bonds.py lines 18-25). -/
def docta_get_yields_intraday (r : Except String HttpResp) : Except String (Option JVal) :=
  match r with
  | .error e => .error e
  | .ok resp =>
      if resp.status = 404 then .ok none
      else if is2xx resp.status then .ok (some resp.jsonBody)
      else .error (statusErrorMsg resp.status)

/-- The structured payload docta_get_yields_historical builds on a 422. -/
def validationPayloadHist (text : String) : JVal :=
  .jobj [("error", .jstr "validation_error"), ("detail", .jstr text)]

/-- docta_get_yields_historical (services/docta_bonds.py lines 27-43):
404 maps to None, 422 maps to a structured validation payload returned as
a normal value, any other non-2xx status is raised, a 2xx body is
returned. -/
def docta_get_yields_historical (r : Except String HttpResp) : Except String (Option JVal) :=
  match r with
  | .error e => .error e
  | .ok resp =>
      if resp.status = 404 then .ok none
      else if resp.status = 422 then .ok (some (validationPayloadHist resp.text))
      else if is2xx resp.status then .ok (some resp.jsonBody)
      else .error (statusErrorMsg resp.status)

/-- The json payload docta_post_pricer sends (and echoes inside its 422
validation payload). -/
def pricerRequestPayload (ticker target : String) (value : ℚ)
    (sEntry opDate : String) : JVal :=
  .jobj [("ticker", .jstr (pyUpper ticker)), ("target", .jstr target),
         ("value", .jnum value), ("settlement_entry", .jstr sEntry),
         ("operation_date", .jstr opDate)]

/-- docta_post_pricer (services/docta_bonds.py lines 45-70). -/
def docta_post_pricer (r : Except String HttpResp) (ticker target : String)
    (value : ℚ) (sEntry opDate : String) : Except String (Option JVal) :=
  match r with
  | .error e => .error e
  | .ok resp =>
      if resp.status = 404 then .ok none
      else if resp.status = 422 then
        .ok (some (.jobj [("error", .jstr "validation_error"), ("detail", .jstr resp.text),
                          ("request", pricerRequestPayload ticker target value sEntry opDate)]))
      else if is2xx resp.status then .ok (some resp.jsonBody)
      else .error (statusErrorMsg resp.status)

/-- A raw market row as returned by the data912 aggregator. -/
structure RawRow where
  symbol : Option String
  c : Option JVal
  extra : List (String × JVal)

/-- The environment of one refresh cycle: the wall clock and the upstream
collaborators (market aggregator, token provider, the four authenticated
analytics calls keyed by token and call arguments).  Each oracle returns
either a transport exception or the HTTP response it produced. -/
structure Env where
  now : ℚ
  nowTimestamp : String
  todayStr : String
  fetch912 : String → Except String (List RawRow)
  classify : String → String → List (String × JVal)
  access_token : String → String → Option String → Except String String
  intradayHttp : String → String → Except String HttpResp
  cashflowHttp : String → String → Except String HttpResp
  historicalHttp : String → String → Except String HttpResp
  pricerHttp : String → String → ℚ → Except String HttpResp

def TTL_MARKET : ℚ := 120

def TTL_YIELDS : ℚ := 600

def TTL_DAILY : ℚ := 86400

def DOCTA_MAX_CONCURRENCY : ℕ := 8

/-- normalize (scheduler.py lines 86-106): uppercase and strip the symbol,
skip rows whose symbol comes out empty, pass the close field through
verbatim, and attach the classification tags. -/
def normalize (classify : String → String → List (String × JVal)) (group : String)
    (rows : List RawRow) : List Row :=
  rows.filterMap fun r =>
    let symbol := pyTrim (pyUpper (r.symbol.getD ""))
    if symbol = "" then none
    else some { symbol := some symbol, c := r.c, extra := r.extra ++ classify group symbol }

/-- The market_summary payload built by _refresh_market (scheduler.py
lines 108-114); counts are taken over the raw (pre-normalize) rows. -/
def market_payload (env : Env) (notes corp bonds : List RawRow) : MarketPayload :=
  { timestamp_utc := env.nowTimestamp
    notes := normalize env.classify "notes" notes
    corp := normalize env.classify "corp" corp
    bonds := normalize env.classify "bonds" bonds
    counts := (notes.length, corp.length, bonds.length) }

/-- _refresh_market (scheduler.py lines 80-119): fetch the three groups in
order (a failure of any fetch reaches the tier-level except-clause and
aborts the tier without touching the cache), then write the normalized
snapshot under the market key with TTL 120. -/
def refresh_market (env : Env) (st : CacheState) : CacheState :=
  match env.fetch912 "arg_notes" with
  | .error _ => st
  | .ok notes =>
      match env.fetch912 "arg_corp" with
      | .error _ => st
      | .ok corp =>
          match env.fetch912 "arg_bonds" with
          | .error _ => st
          | .ok bonds =>
              cache_set st env.now CACHE_KEYS.MARKET_SUMMARY
                (.market (market_payload env notes corp bonds)) TTL_MARKET

/-- _get_docta_config (scheduler.py lines 121-123): read the externally
populated credentials entry; a missing or expired entry behaves as the
empty dict, whose gets are all None. -/
def get_docta_config (st : CacheState) (now : ℚ) :
    Option String × Option String × Option String :=
  match (cache_get st now CACHE_KEYS.DOCTA_CONFIG).1 with
  | some (.config cid cs sc) => (cid, cs, sc)
  | _ => (none, none, none)

/-- Python truthiness of an optional string: None and the empty string are
falsy. -/
def pyFalsyStr : Option String → Bool
  | none => true
  | some s => s == ""

/-- _get_token (scheduler.py lines 125-129): raise when client_id or
client_secret is falsy, otherwise call the external token provider (which
may itself raise). -/
def get_token (env : Env) (st : CacheState) : Except String String :=
  let cfg := get_docta_config st env.now
  if pyFalsyStr cfg.1 || pyFalsyStr cfg.2.1 then
    .error "Missing Docta credentials in cache."
  else env.access_token (cfg.1.getD "") (cfg.2.1.getD "") cfg.2.2

/-- market payload read back from the cache: cache_get(...) or \x7b\x7d; the
scheduler is the only writer of the market key, so any stored value there
is a market snapshot, and the fallback empty dict has empty groups. -/
def marketOf : Option CVal → MarketPayload
  | some (.market m) => m
  | _ => { timestamp_utc := "", notes := [], corp := [], bonds := [], counts := (0, 0, 0) }

def insertSorted (x : String) : List String → List String
  | [] => [x]
  | y :: ys => if x ≤ y then x :: y :: ys else y :: insertSorted x ys

def sortStrings : List String → List String
  | [] => []
  | x :: xs => insertSorted x (sortStrings xs)

/-- _extract_all_symbols_from_market (scheduler.py lines 131-142): walk the
three groups of the current market snapshot, keep truthy symbols
upper-cased and stripped, deduplicate (the Python set) and sort. -/
def extract_all_symbols_from_market (st : CacheState) (now : ℚ) : List String :=
  let m := marketOf (cache_get st now CACHE_KEYS.MARKET_SUMMARY).1
  let raw := (m.notes ++ m.corp ++ m.bonds).filterMap fun r =>
    match r.symbol with
    | none => none
    | some s => if s = "" then none else some (pyTrim (pyUpper s))
  sortStrings raw.dedup

/-- The per-symbol effect of one fan-out worker on the tier envelope
(scheduler.py lines 155-164 and analogues): a None result is silently
skipped, a payload goes into data, an exception message into errors. -/
def stepEnvelope (e : Envelope) (sym : String) : Except String (Option JVal) → Envelope
  | .ok none => e
  | .ok (some y) => { e with data := dictInsert e.data sym y }
  | .error msg => { e with errors := dictInsert e.errors sym msg }

/-- A whole fan-out pass: every symbol is attempted; the workers write to
distinct per-symbol keys, so the fold order is the content of the
asyncio.gather up to dict insertion order. -/
def runEnvelope (f : String → Except String (Option JVal)) (ts : String)
    (syms : List String) : Envelope :=
  syms.foldl (fun e s => stepEnvelope e s (f s)) { timestamp_utc := ts, data := [], errors := [] }

/-- The yields envelope built by _refresh_yields (scheduler.py 144-165). -/
def yields_envelope (env : Env) (token : String) (st : CacheState) : Envelope :=
  runEnvelope (fun s => docta_get_yields_intraday (env.intradayHttp token s))
    env.nowTimestamp (extract_all_symbols_from_market st env.now)

/-- _refresh_yields (scheduler.py lines 144-169): on a token failure the
tier is abandoned with the cache untouched; otherwise the envelope is
written under the yields key with TTL 600. -/
def refresh_yields (env : Env) (st : CacheState) : CacheState :=
  match get_token env st with
  | .error _ => st
  | .ok token =>
      cache_set st env.now CACHE_KEYS.DOCTA_YIELDS
        (.env (yields_envelope env token st)) TTL_YIELDS

def from_date_fixed : String := "2020-01-01"

def settlementEntryFixed : String := "24hs"

/-- The fixed list of percentage offsets (scheduler.py line 207). -/
def pct_scenarios : List ℚ := [-0.10, -0.05, -0.02, 0.02, 0.05, 0.10]

/-- One collected scenario entry (scheduler.py lines 248-252); a None
provider response is stored as null. -/
def scenarioEntry (p val : ℚ) (res : Option JVal) : JVal :=
  .jobj [("pct", .jnum p), ("input_dirty_price", .jnum val), ("result", res.getD .jnull)]

/-- The sequential scenario loop of pricer_worker (scheduler.py lines
237-252): one pricer call per offset, input price px * (1 + p); the first
raising call aborts the loop (and the worker records the error). -/
def run_scenarios (call : ℚ → Except String (Option JVal)) (px : ℚ) :
    List ℚ → Except String (List JVal)
  | [] => .ok []
  | p :: rest =>
      match call (px * (1 + p)) with
      | .error e => .error e
      | .ok res =>
          match run_scenarios call px rest with
          | .error e => .error e
          | .ok tail => .ok (scenarioEntry p (px * (1 + p)) res :: tail)

/-- The per-symbol pricer data payload (scheduler.py lines 254-259). -/
def pricer_payload (env : Env) (px : ℚ) (scenarios : List JVal) : JVal :=
  .jobj [("base_price", .jnum px), ("operation_date", .jstr env.todayStr),
         ("settlement_entry", .jstr settlementEntryFixed), ("scenarios", .jlist scenarios)]

/-- The per-symbol outcome of pricer_worker (scheduler.py lines 229-261):
a symbol without a resolvable price is skipped entirely; otherwise the six
scenario calls run sequentially, and either all succeed (payload) or the
first exception is recorded as the error of the symbol. -/
def pricer_outcome (env : Env) (token : String) (market : MarketPayload)
    (sym : String) : Except String (Option JVal) :=
  match find_price market sym with
  | none => .ok none
  | some px =>
      match run_scenarios
          (fun v => docta_post_pricer (env.pricerHttp token sym v) sym "price" v
            settlementEntryFixed env.todayStr) px pct_scenarios with
      | .error e => .error e
      | .ok scenarios => .ok (some (pricer_payload env px scenarios))

/-- The cashflows envelope of the daily pack (scheduler.py 185, 209-217). -/
def cashflows_envelope (env : Env) (token : String) (st : CacheState) : Envelope :=
  runEnvelope (fun s => docta_get_cashflow (env.cashflowHttp token s))
    env.nowTimestamp (extract_all_symbols_from_market st env.now)

/-- The historical envelope of the daily pack (scheduler.py 186, 219-227),
with the fixed date range from 2020-01-01 to today. -/
def historical_envelope (env : Env) (token : String) (st : CacheState) : HistEnvelope :=
  let e := runEnvelope (fun s => docta_get_yields_historical (env.historicalHttp token s))
    env.nowTimestamp (extract_all_symbols_from_market st env.now)
  { timestamp_utc := env.nowTimestamp, from_date := from_date_fixed,
    to_date := env.todayStr, data := e.data, errors := e.errors }

/-- The pricer envelope of the daily pack (scheduler.py 187, 229-261). -/
def pricer_envelope (env : Env) (token : String) (st : CacheState) : Envelope :=
  runEnvelope
    (pricer_outcome env token (marketOf (cache_get st env.now CACHE_KEYS.MARKET_SUMMARY).1))
    env.nowTimestamp (extract_all_symbols_from_market st env.now)

/-- _refresh_daily_pack (scheduler.py lines 171-274): token failure
abandons the whole tier without touching the cache; otherwise the three
passes run (cashflow fan-out, then historical, then pricer) and each
writes its own key with TTL 86400. -/
def refresh_daily_pack (env : Env) (st : CacheState) : CacheState :=
  match get_token env st with
  | .error _ => st
  | .ok token =>
      let st1 := cache_set st env.now CACHE_KEYS.DOCTA_CASHFLOWS
        (.env (cashflows_envelope env token st)) TTL_DAILY
      let st2 := cache_set st1 env.now CACHE_KEYS.DOCTA_HISTORICAL
        (.henv (historical_envelope env token st)) TTL_DAILY
      cache_set st2 env.now CACHE_KEYS.DOCTA_PRICER
        (.env (pricer_envelope env token st)) TTL_DAILY

/-- The market clause of the polling loop body (scheduler.py 61-62). -/
def poll_market (env : Env) (st : CacheState) : CacheState :=
  if cache_is_fresh st env.now CACHE_KEYS.MARKET_SUMMARY then st else refresh_market env st

/-- The yields clause of the polling loop body (scheduler.py 65-66). -/
def poll_yields (env : Env) (st : CacheState) : CacheState :=
  if cache_is_fresh st env.now CACHE_KEYS.DOCTA_YIELDS then st else refresh_yields env st

/-- The daily clause of the polling loop body (scheduler.py 69-72). -/
def poll_daily (env : Env) (st : CacheState) : CacheState :=
  if !cache_is_fresh st env.now CACHE_KEYS.DOCTA_CASHFLOWS
      || !cache_is_fresh st env.now CACHE_KEYS.DOCTA_HISTORICAL
      || !cache_is_fresh st env.now CACHE_KEYS.DOCTA_PRICER then
    refresh_daily_pack env st
  else st

/-- One full iteration of the polling loop body (scheduler.py 56-72),
after the 5 second sleep: the three freshness checks in order. -/
def poll_once (env : Env) (st : CacheState) : CacheState :=
  poll_daily env (poll_yields env (poll_market env st))

/-- Inductive invariant of a fan-out pass: a symbol sits in data only if
its call outcome was a payload, and in errors only if its call raised. -/
def EnvelopeConsistent (f : String → Except String (Option JVal)) (e : Envelope) : Prop :=
  ∀ s : String,
    ((dictGet e.data s).isSome → ∃ y, f s = .ok (some y))
    ∧ ((dictGet e.errors s).isSome → ∃ m, f s = .error m)

theorem stepEnvelope_consistent (f : String → Except String (Option JVal))
    (e : Envelope) (sym : String) (he : EnvelopeConsistent f e) :
    EnvelopeConsistent f (stepEnvelope e sym (f sym)) := by
  intro s
  cases hf : f sym with
  | error m =>
      refine ⟨fun hd => ?_, fun herr => ?_⟩
      · exact (he s).1 (by simpa [stepEnvelope, hf] using hd)
      · by_cases hs : sym = s
        · subst hs; exact ⟨m, hf⟩
        · refine (he s).2 ?_
          simpa [stepEnvelope, hf, dictGet_insert_ne _ _ _ _ hs] using herr
  | ok res =>
      cases res with
      | none =>
          refine ⟨fun hd => (he s).1 (by simpa [stepEnvelope, hf] using hd),
                  fun herr => (he s).2 (by simpa [stepEnvelope, hf] using herr)⟩
      | some y =>
          refine ⟨fun hd => ?_, fun herr => ?_⟩
          · by_cases hs : sym = s
            · subst hs; exact ⟨y, hf⟩
            · refine (he s).1 ?_
              simpa [stepEnvelope, hf, dictGet_insert_ne _ _ _ _ hs] using hd
          · exact (he s).2 (by simpa [stepEnvelope, hf] using herr)

theorem runEnvelope_consistent (f : String → Except String (Option JVal))
    (ts : String) (syms : List String) :
    EnvelopeConsistent f (runEnvelope f ts syms) := by
  have hgen : ∀ (l : List String) (e : Envelope), EnvelopeConsistent f e →
      EnvelopeConsistent f (l.foldl (fun e s => stepEnvelope e s (f s)) e) := by
    intro l
    induction l with
    | nil => exact fun e he => he
    | cons s rest ih =>
        intro e he
        exact ih _ (stepEnvelope_consistent f e s he)
  refine hgen syms _ ?_
  intro s
  exact ⟨fun h => by simp [dictGet] at h, fun h => by simp [dictGet] at h⟩

/-- A symbol never appears in both maps of an envelope. -/
def MutuallyExclusive (data : List (String × JVal)) (errors : List (String × String)) : Prop :=
  ∀ s : String, dictGet data s = none ∨ dictGet errors s = none

theorem runEnvelope_mutually_exclusive (f : String → Except String (Option JVal))
    (ts : String) (syms : List String) :
    MutuallyExclusive (runEnvelope f ts syms).data (runEnvelope f ts syms).errors := by
  intro s
  by_contra hboth
  push_neg at hboth
  obtain ⟨hd, herr⟩ := hboth
  obtain ⟨y, hy⟩ := ((runEnvelope_consistent f ts syms) s).1 (Option.isSome_iff_ne_none.mpr hd)
  obtain ⟨m, hm⟩ := ((runEnvelope_consistent f ts syms) s).2 (Option.isSome_iff_ne_none.mpr herr)
  rw [hy] at hm
  exact Except.noConfusion hm

/-- Claim C2: in every envelope written by a tier refresh (yields,
cashflows, historical, pricer), a symbol is a key of the errors map only
if it is not a key of the data map and vice versa, for every environment,
token, cache state and symbol. -/
theorem refresh_envelopes_mutually_exclusive (env : Env) (token : String) (st : CacheState) :
    MutuallyExclusive (yields_envelope env token st).data (yields_envelope env token st).errors
    ∧ MutuallyExclusive (cashflows_envelope env token st).data (cashflows_envelope env token st).errors
    ∧ MutuallyExclusive (historical_envelope env token st).data (historical_envelope env token st).errors
    ∧ MutuallyExclusive (pricer_envelope env token st).data (pricer_envelope env token st).errors := by
  refine ⟨runEnvelope_mutually_exclusive _ _ _, runEnvelope_mutually_exclusive _ _ _,
    ?_, runEnvelope_mutually_exclusive _ _ _⟩
  show MutuallyExclusive (runEnvelope _ _ _).data (runEnvelope _ _ _).errors
  exact runEnvelope_mutually_exclusive _ _ _

/-- Claim C9: the historical-yield fetch maps a 404 to absent (and the
worker then records the symbol neither as data nor as error), maps a 422
to a structured validation payload that the worker stores as the symbol
data, and raises on any other non-2xx status, which the worker records in
the per-symbol error map. -/
theorem historical_status_handling (resp : HttpResp) (sym : String) (e : Envelope) :
    (resp.status = 404 →
      docta_get_yields_historical (.ok resp) = .ok none
      ∧ stepEnvelope e sym (docta_get_yields_historical (.ok resp)) = e)
    ∧ (resp.status = 422 →
      docta_get_yields_historical (.ok resp) = .ok (some (validationPayloadHist resp.text))
      ∧ stepEnvelope e sym (docta_get_yields_historical (.ok resp))
          = { e with data := dictInsert e.data sym (validationPayloadHist resp.text) })
    ∧ (is2xx resp.status = false → resp.status ≠ 404 → resp.status ≠ 422 →
      docta_get_yields_historical (.ok resp) = .error (statusErrorMsg resp.status)
      ∧ stepEnvelope e sym (docta_get_yields_historical (.ok resp))
          = { e with errors := dictInsert e.errors sym (statusErrorMsg resp.status) }) := by
  refine ⟨fun h404 => ?_, fun h422 => ?_, fun h2xx h404 h422 => ?_⟩
  · have : docta_get_yields_historical (.ok resp) = .ok none := by
      simp [docta_get_yields_historical, h404]
    exact ⟨this, by simp [this, stepEnvelope]⟩
  · have : docta_get_yields_historical (.ok resp)
        = .ok (some (validationPayloadHist resp.text)) := by
      simp [docta_get_yields_historical, h422]
    exact ⟨this, by simp [this, stepEnvelope]⟩
  · have : docta_get_yields_historical (.ok resp) = .error (statusErrorMsg resp.status) := by
      simp [docta_get_yields_historical, h404, h422, h2xx]
    exact ⟨this, by simp [this, stepEnvelope]⟩

/-- Witness for C9 at concrete responses: a 404, a 422 and a 500 against
the empty envelope and symbol AL30. -/
theorem historical_status_handling_witness :
    (docta_get_yields_historical (.ok ⟨404, JVal.jnull, "nf"⟩) = .ok none
      ∧ stepEnvelope ⟨"ts", [], []⟩ "AL30" (docta_get_yields_historical (.ok ⟨404, JVal.jnull, "nf"⟩))
          = ⟨"ts", [], []⟩)
    ∧ (docta_get_yields_historical (.ok ⟨422, JVal.jnull, "bad"⟩)
          = .ok (some (validationPayloadHist "bad"))
      ∧ stepEnvelope ⟨"ts", [], []⟩ "AL30" (docta_get_yields_historical (.ok ⟨422, JVal.jnull, "bad"⟩))
          = ⟨"ts", [("AL30", validationPayloadHist "bad")], []⟩)
    ∧ (docta_get_yields_historical (.ok ⟨500, JVal.jnull, "boom"⟩)
          = .error (statusErrorMsg 500)
      ∧ stepEnvelope ⟨"ts", [], []⟩ "AL30" (docta_get_yields_historical (.ok ⟨500, JVal.jnull, "boom"⟩))
          = ⟨"ts", [], [("AL30", statusErrorMsg 500)]⟩) := by
  refine ⟨?_, ?_, ?_⟩
  · exact (historical_status_handling ⟨404, JVal.jnull, "nf"⟩ "AL30" ⟨"ts", [], []⟩).1 rfl
  · exact (historical_status_handling ⟨422, JVal.jnull, "bad"⟩ "AL30" ⟨"ts", [], []⟩).2.1 rfl
  · exact (historical_status_handling ⟨500, JVal.jnull, "boom"⟩ "AL30" ⟨"ts", [], []⟩).2.2
      (by decide) (by decide) (by decide)

/-- Claim C10: when the market_summary key is absent or expired, the
symbol universe is empty, and a yields refresh that acquires a token
writes a docta_yields envelope with empty data and errors maps under the
full TTL of 600 seconds; the fresh empty envelope suppresses the loop
from re-running the yields refresh until it expires. -/
theorem empty_market_empty_yields_envelope (env : Env) (st : CacheState) (token : String)
    (hm : (cache_get st env.now CACHE_KEYS.MARKET_SUMMARY).1 = none)
    (ht : get_token env st = .ok token) :
    TTL_YIELDS = 600
    ∧ dictGet (refresh_yields env st) CACHE_KEYS.DOCTA_YIELDS
        = some ⟨.env ⟨env.nowTimestamp, [], []⟩, env.now + TTL_YIELDS⟩
    ∧ (∀ t : ℚ, t ≤ env.now + TTL_YIELDS →
        (cache_get (refresh_yields env st) t CACHE_KEYS.DOCTA_YIELDS).1
          = some (.env ⟨env.nowTimestamp, [], []⟩))
    ∧ (∀ t : ℚ, env.now + TTL_YIELDS < t →
        (cache_get (refresh_yields env st) t CACHE_KEYS.DOCTA_YIELDS).1 = none)
    ∧ (∀ env2 : Env, env2.now ≤ env.now + TTL_YIELDS →
        poll_yields env2 (refresh_yields env st) = refresh_yields env st) := by
  have hsyms : extract_all_symbols_from_market st env.now = [] := by
    simp [extract_all_symbols_from_market, hm, marketOf, sortStrings]
  have henv : yields_envelope env token st = ⟨env.nowTimestamp, [], []⟩ := by
    simp [yields_envelope, hsyms, runEnvelope]
  have hrw : refresh_yields env st
      = cache_set st env.now CACHE_KEYS.DOCTA_YIELDS
          (.env ⟨env.nowTimestamp, [], []⟩) TTL_YIELDS := by
    simp [refresh_yields, ht, henv]
  refine ⟨rfl, ?_, fun t hle => ?_, fun t hlt => ?_, fun env2 h2 => ?_⟩
  · rw [hrw]; simp [cache_set, dictGet_insert_self]
  · rw [hrw]
    have hnot : ¬ (env.now + TTL_YIELDS < t) := not_lt.mpr hle
    simp [cache_get, cache_set, dictGet_insert_self, hnot]
  · rw [hrw]
    simp [cache_get, cache_set, dictGet_insert_self, hlt]
  · have hfresh : cache_is_fresh (refresh_yields env st) env2.now CACHE_KEYS.DOCTA_YIELDS = true := by
      rw [hrw]
      simp [cache_is_fresh, cache_set, dictGet_insert_self, h2]
    simp [poll_yields, hfresh]

/-- A concrete environment for the C10 witness: market fetches fail, the
token provider succeeds, analytics calls fail with a transport error. -/
def envC10 : Env :=
  { now := 0, nowTimestamp := "2026-01-02T00:00:00", todayStr := "2026-01-02",
    fetch912 := fun _ => .error "down", classify := fun _ _ => [],
    access_token := fun _ _ _ => .ok "tok",
    intradayHttp := fun _ _ => .error "net",
    cashflowHttp := fun _ _ => .error "net",
    historicalHttp := fun _ _ => .error "net",
    pricerHttp := fun _ _ _ => .error "net" }

/-- A concrete cache holding only the externally populated credentials. -/
def stC10 : CacheState :=
  [(CACHE_KEYS.DOCTA_CONFIG, ⟨.config (some "id") (some "secret") none, 1000⟩)]

/-- Witness for C10: with an empty market key and valid credentials, the
yields refresh writes the empty envelope, readable through second 600,
absent at second 601, and the poll clause at second 500 does not re-run
the refresh. -/
theorem empty_market_empty_yields_envelope_witness :
    dictGet (refresh_yields envC10 stC10) CACHE_KEYS.DOCTA_YIELDS
      = some ⟨.env ⟨envC10.nowTimestamp, [], []⟩, envC10.now + TTL_YIELDS⟩
    ∧ (cache_get (refresh_yields envC10 stC10) 600 CACHE_KEYS.DOCTA_YIELDS).1
      = some (.env ⟨envC10.nowTimestamp, [], []⟩)
    ∧ (cache_get (refresh_yields envC10 stC10) 601 CACHE_KEYS.DOCTA_YIELDS).1 = none
    ∧ poll_yields { envC10 with now := 500 } (refresh_yields envC10 stC10)
      = refresh_yields envC10 stC10 := by
  obtain ⟨-, h1, h2, h3, h4⟩ :=
    empty_market_empty_yields_envelope envC10 stC10 "tok" rfl rfl
  refine ⟨h1, h2 600 ?_, h3 601 ?_, h4 { envC10 with now := 500 } ?_⟩
  · show (600 : ℚ) ≤ envC10.now + TTL_YIELDS
    norm_num [envC10, TTL_YIELDS]
  · show envC10.now + TTL_YIELDS < (601 : ℚ)
    norm_num [envC10, TTL_YIELDS]
  · show ({ envC10 with now := 500 } : Env).now ≤ envC10.now + TTL_YIELDS
    norm_num [envC10, TTL_YIELDS]

/-- Claim C7: when client_id or client_secret is absent (falsy) in the
docta_config entry, token acquisition raises, the tier catches it, the
whole refresh of that cycle is abandoned and the cache is left exactly as
it was, so any entry from a previous cycle stays stored under its own
expiry. -/
theorem missing_credentials_abandons_tier (env : Env) (st : CacheState)
    (h : pyFalsyStr (get_docta_config st env.now).1 = true
       ∨ pyFalsyStr (get_docta_config st env.now).2.1 = true) :
    get_token env st = .error "Missing Docta credentials in cache."
    ∧ refresh_yields env st = st
    ∧ refresh_daily_pack env st = st := by
  have htok : get_token env st = .error "Missing Docta credentials in cache." := by
    unfold get_token
    rcases h with h | h <;> simp [h]
  refine ⟨htok, ?_, ?_⟩
  · simp [refresh_yields, htok]
  · simp [refresh_daily_pack, htok]

/-- Cache for the C7 witness: credentials entry lacks client_secret; a
yields envelope from a previous cycle is also present. -/
def stC7 : CacheState :=
  [(CACHE_KEYS.DOCTA_CONFIG, ⟨.config (some "id") none none, 1000⟩),
   (CACHE_KEYS.DOCTA_YIELDS, ⟨.env ⟨"old", [("AL30", JVal.jnum 7)], []⟩, 50⟩)]

/-- Witness for C7 at a concrete input: missing client_secret makes both
tier refreshes leave the cache (including the previous-cycle yields
entry) unchanged. -/
theorem missing_credentials_abandons_tier_witness :
    get_token envC10 stC7 = .error "Missing Docta credentials in cache."
    ∧ refresh_yields envC10 stC7 = stC7
    ∧ refresh_daily_pack envC10 stC7 = stC7 :=
  missing_credentials_abandons_tier envC10 stC7 (Or.inr rfl)

/-- Claim C5: with a token acquired, the daily pack writes all three of
its cache entries (docta_cashflows, docta_historical, docta_pricer), each
with TTL 86400, and the entry written for one pass is a function of that
pass oracle alone: replacing the oracles of the other two passes changes
nothing about it. -/
theorem daily_pack_writes_and_independence (env : Env) (st : CacheState) (token : String)
    (ht : get_token env st = .ok token)
    (ch hh : String → String → Except String HttpResp)
    (ph : String → String → ℚ → Except String HttpResp) :
    TTL_DAILY = 86400
    ∧ dictGet (refresh_daily_pack env st) CACHE_KEYS.DOCTA_CASHFLOWS
        = some ⟨.env (cashflows_envelope env token st), env.now + TTL_DAILY⟩
    ∧ dictGet (refresh_daily_pack env st) CACHE_KEYS.DOCTA_HISTORICAL
        = some ⟨.henv (historical_envelope env token st), env.now + TTL_DAILY⟩
    ∧ dictGet (refresh_daily_pack env st) CACHE_KEYS.DOCTA_PRICER
        = some ⟨.env (pricer_envelope env token st), env.now + TTL_DAILY⟩
    ∧ dictGet (refresh_daily_pack { env with historicalHttp := hh, pricerHttp := ph } st)
          CACHE_KEYS.DOCTA_CASHFLOWS
        = dictGet (refresh_daily_pack env st) CACHE_KEYS.DOCTA_CASHFLOWS
    ∧ dictGet (refresh_daily_pack { env with cashflowHttp := ch, pricerHttp := ph } st)
          CACHE_KEYS.DOCTA_HISTORICAL
        = dictGet (refresh_daily_pack env st) CACHE_KEYS.DOCTA_HISTORICAL
    ∧ dictGet (refresh_daily_pack { env with cashflowHttp := ch, historicalHttp := hh } st)
          CACHE_KEYS.DOCTA_PRICER
        = dictGet (refresh_daily_pack env st) CACHE_KEYS.DOCTA_PRICER := by
  have hcash : ∀ e2 : Env, get_token e2 st = .ok token →
      dictGet (refresh_daily_pack e2 st) CACHE_KEYS.DOCTA_CASHFLOWS
        = some ⟨.env (cashflows_envelope e2 token st), e2.now + TTL_DAILY⟩ := by
    intro e2 ht2
    simp only [refresh_daily_pack, ht2]
    rw [cache_set, cache_set, cache_set,
      dictGet_insert_ne _ _ _ _ (by decide),
      dictGet_insert_ne _ _ _ _ (by decide),
      dictGet_insert_self]
  have hhist : ∀ e2 : Env, get_token e2 st = .ok token →
      dictGet (refresh_daily_pack e2 st) CACHE_KEYS.DOCTA_HISTORICAL
        = some ⟨.henv (historical_envelope e2 token st), e2.now + TTL_DAILY⟩ := by
    intro e2 ht2
    simp only [refresh_daily_pack, ht2]
    rw [cache_set, cache_set, cache_set,
      dictGet_insert_ne _ _ _ _ (by decide),
      dictGet_insert_self]
  have hpricer : ∀ e2 : Env, get_token e2 st = .ok token →
      dictGet (refresh_daily_pack e2 st) CACHE_KEYS.DOCTA_PRICER
        = some ⟨.env (pricer_envelope e2 token st), e2.now + TTL_DAILY⟩ := by
    intro e2 ht2
    simp only [refresh_daily_pack, ht2]
    rw [cache_set, cache_set, cache_set, dictGet_insert_self]
  refine ⟨rfl, hcash env ht, hhist env ht, hpricer env ht, ?_, ?_, ?_⟩
  · rw [hcash { env with historicalHttp := hh, pricerHttp := ph } ht, hcash env ht]
    rfl
  · rw [hhist { env with cashflowHttp := ch, pricerHttp := ph } ht, hhist env ht]
    rfl
  · rw [hpricer { env with cashflowHttp := ch, historicalHttp := hh } ht, hpricer env ht]
    rfl

/-- A replacement oracle answering HTTP 200 with a null body. -/
def ok200 : Except String HttpResp := .ok ⟨200, JVal.jnull, ""⟩

/-- Witness for C5 at concrete inputs: the C10 environment and credentials
cache, with replacement oracles answering 200. -/
theorem daily_pack_writes_and_independence_witness :
    dictGet (refresh_daily_pack envC10 stC10) CACHE_KEYS.DOCTA_CASHFLOWS
      = some ⟨.env (cashflows_envelope envC10 "tok" stC10), envC10.now + TTL_DAILY⟩
    ∧ dictGet (refresh_daily_pack envC10 stC10) CACHE_KEYS.DOCTA_HISTORICAL
      = some ⟨.henv (historical_envelope envC10 "tok" stC10), envC10.now + TTL_DAILY⟩
    ∧ dictGet (refresh_daily_pack envC10 stC10) CACHE_KEYS.DOCTA_PRICER
      = some ⟨.env (pricer_envelope envC10 "tok" stC10), envC10.now + TTL_DAILY⟩
    ∧ dictGet (refresh_daily_pack
          { envC10 with historicalHttp := fun _ _ => ok200, pricerHttp := fun _ _ _ => ok200 }
          stC10)
        CACHE_KEYS.DOCTA_CASHFLOWS
      = dictGet (refresh_daily_pack envC10 stC10) CACHE_KEYS.DOCTA_CASHFLOWS := by
  obtain ⟨-, h1, h2, h3, h4, -, -⟩ :=
    daily_pack_writes_and_independence envC10 stC10 "tok" rfl
      (fun _ _ => ok200) (fun _ _ => ok200) (fun _ _ _ => ok200)
  exact ⟨h1, h2, h3, h4⟩

/-- Python dict .get on a json object value; absent on non-objects. -/
def jObjGet : JVal → String → Option JVal
  | .jobj fields, k => dictGet fields k
  | _, _ => none

/-- The value carried by a non-raising call outcome. -/
def resultOf : Except String (Option JVal) → Option JVal
  | .ok r => r
  | .error _ => none

/-- Modelled from the words of claim C6 (for comparison with the
scenarioEntry the code builds): an entry \x7bpct, input_price, result\x7d. -/
def spec_scenario_entry (p val : ℚ) (res : Option JVal) : JVal :=
  .jobj [("pct", .jnum p), ("input_price", .jnum val), ("result", res.getD .jnull)]

/-- A pricer-call oracle echoing its input price back as the response. -/
def callEcho : ℚ → Except String (Option JVal) := fun v => .ok (some (.jnum v))

/-- Claim C6, counterexample: at base price 100 and offsets -0.10 and
0.10 the code produces entries whose input-price field is named
input_dirty_price (with exact values 90 and 110); the entry has no
input_price key, so it differs from the \x7bpct, input_price, result\x7d shape
the claim states. -/
theorem pricer_scenarios_counterexample :
    run_scenarios callEcho 100 [-0.10, 0.10]
      = .ok [scenarioEntry (-0.10) 90 (some (.jnum 90)),
             scenarioEntry 0.10 110 (some (.jnum 110))]
    ∧ jObjGet (scenarioEntry (-0.10) 90 (some (.jnum 90))) "input_price" = none
    ∧ jObjGet (scenarioEntry (-0.10) 90 (some (.jnum 90))) "input_dirty_price"
        = some (.jnum 90)
    ∧ scenarioEntry (-0.10) 90 (some (.jnum 90))
        ≠ spec_scenario_entry (-0.10) 90 (some (.jnum 90)) := by
  have e1 : (100 : ℚ) * (1 + (-0.10)) = 90 := by norm_num
  have e2 : (100 : ℚ) * (1 + (0.10 : ℚ)) = 110 := by norm_num
  refine ⟨?_, rfl, rfl, fun h => ?_⟩
  · simp [run_scenarios, callEcho, resultOf, e1, e2]
  · have h2 := congrArg (fun j => jObjGet j "input_price") h
    simp [scenarioEntry, spec_scenario_entry, jObjGet, dictGet] at h2

/-- Claim C6, amended: for a resolvable base price px the pricer pass
issues one call per entry p of the fixed offset list pct_scenarios,
applied multiplicatively (input price px * (1 + p)), and collects per
offset an entry \x7bpct, input_dirty_price, result\x7d carrying the response of
its own call; in exact arithmetic, base 100 and offsets -0.10 / 0.10 give
input_dirty_price 90 and 110. -/
theorem pricer_scenarios_amended :
    (∀ (call : ℚ → Except String (Option JVal)) (px : ℚ) (ps : List ℚ),
      (∀ p ∈ ps, ∃ r, call (px * (1 + p)) = .ok r) →
      run_scenarios call px ps
        = .ok (ps.map fun p => scenarioEntry p (px * (1 + p)) (resultOf (call (px * (1 + p))))))
    ∧ (∀ (p val : ℚ) (res : Option JVal),
        jObjGet (scenarioEntry p val res) "pct" = some (.jnum p)
        ∧ jObjGet (scenarioEntry p val res) "input_dirty_price" = some (.jnum val)
        ∧ jObjGet (scenarioEntry p val res) "result" = some (res.getD .jnull))
    ∧ (∀ (env : Env) (token : String) (market : MarketPayload) (sym : String) (px : ℚ),
        find_price market sym = some px →
        (∀ p ∈ pct_scenarios, ∃ r,
          docta_post_pricer (env.pricerHttp token sym (px * (1 + p))) sym "price"
            (px * (1 + p)) settlementEntryFixed env.todayStr = .ok r) →
        pricer_outcome env token market sym
          = .ok (some (pricer_payload env px (pct_scenarios.map fun p =>
              scenarioEntry p (px * (1 + p))
                (resultOf (docta_post_pricer (env.pricerHttp token sym (px * (1 + p))) sym
                  "price" (px * (1 + p)) settlementEntryFixed env.todayStr)))))) := by
  have hgen : ∀ (call : ℚ → Except String (Option JVal)) (px : ℚ) (ps : List ℚ),
      (∀ p ∈ ps, ∃ r, call (px * (1 + p)) = .ok r) →
      run_scenarios call px ps
        = .ok (ps.map fun p => scenarioEntry p (px * (1 + p)) (resultOf (call (px * (1 + p))))) := by
    intro call px ps h
    induction ps with
    | nil => simp [run_scenarios]
    | cons p rest ih =>
        obtain ⟨r, hr⟩ := h p (List.mem_cons_self p rest)
        have hrest := ih (fun q hq => h q (List.mem_cons_of_mem p hq))
        simp [run_scenarios, hr, hrest, resultOf]
  refine ⟨hgen, fun p val res => ⟨rfl, rfl, rfl⟩, ?_⟩
  intro env token market sym px hpx h
  have hrun := hgen
    (fun v => docta_post_pricer (env.pricerHttp token sym v) sym "price" v
      settlementEntryFixed env.todayStr) px pct_scenarios h
  simp only [pricer_outcome, hpx, hrun]

/-- The C6 witness environment: the pricer endpoint answers 200 echoing
the requested value. -/
def envC6 : Env :=
  { envC10 with pricerHttp := fun _ _ v => .ok ⟨200, .jnum v, ""⟩ }

/-- A market snapshot giving AL30 the base price 100. -/
def marketC6 : MarketPayload :=
  { timestamp_utc := "t", notes := [{ symbol := some "AL30", c := some (.jnum 100), extra := [] }],
    corp := [], bonds := [], counts := (1, 0, 0) }

/-- Witness for C6 at concrete inputs: echoing oracle, base price 100;
the full six-offset run, the two-offset example run with exact input
prices 90 and 110, and a whole pricer_worker outcome. -/
theorem pricer_scenarios_amended_witness :
    run_scenarios callEcho 100 pct_scenarios
      = .ok (pct_scenarios.map fun p =>
          scenarioEntry p (100 * (1 + p)) (resultOf (callEcho (100 * (1 + p)))))
    ∧ run_scenarios callEcho 100 [-0.10, 0.10]
      = .ok [scenarioEntry (-0.10) 90 (some (.jnum 90)),
             scenarioEntry 0.10 110 (some (.jnum 110))]
    ∧ jObjGet (scenarioEntry 0.10 110 (some (.jnum 110))) "input_dirty_price"
      = some (.jnum 110)
    ∧ pricer_outcome envC6 "tok" marketC6 "AL30"
      = .ok (some (pricer_payload envC6 100 (pct_scenarios.map fun p =>
          scenarioEntry p (100 * (1 + p)) (some (.jnum (100 * (1 + p))))))) := by
  obtain ⟨hgen, hfields, houtcome⟩ := pricer_scenarios_amended
  have e1 : (100 : ℚ) * (1 + (-0.10)) = 90 := by norm_num
  have e2 : (100 : ℚ) * (1 + (0.10 : ℚ)) = 110 := by norm_num
  refine ⟨hgen callEcho 100 pct_scenarios (fun p _ => ⟨some (.jnum (100 * (1 + p))), rfl⟩),
    ?_, (hfields 0.10 110 (some (.jnum 110))).2.1, ?_⟩
  · rw [hgen callEcho 100 [-0.10, 0.10] (fun p _ => ⟨some (.jnum (100 * (1 + p))), rfl⟩)]
    simp [callEcho, resultOf, e1, e2]
  · rw [houtcome envC6 "tok" marketC6 "AL30" 100 rfl
      (fun p _ => ⟨some (.jnum (100 * (1 + p))), rfl⟩)]
    rfl

/-- The program counter of the scheduler task spawned by start_scheduler
(scheduler.py lines 32-35 and 44-78): the three warm-up awaits in program
order, then the periodic polling loop. -/
inductive SchedPC where
  | wMarket
  | wYields
  | wDaily
  | looping
  deriving DecidableEq

/-- The scheduler task state: where the task is and the current cache. -/
structure SchedState where
  pc : SchedPC
  cache : CacheState

/-- One step of _run_loop: the warm-up awaits market, yields and the
daily pack in order before the while loop; afterwards every step is one
loop iteration (the 5 second sleep followed by the three freshness
checks).  The environment supplies the clock and oracles of the step. -/
def sched_step (env : Env) (s : SchedState) : SchedState :=
  match s.pc with
  | .wMarket => ⟨.wYields, refresh_market env s.cache⟩
  | .wYields => ⟨.wDaily, refresh_yields env s.cache⟩
  | .wDaily => ⟨.looping, refresh_daily_pack env s.cache⟩
  | .looping => ⟨.looping, poll_once env s.cache⟩

/-- The scheduler task after n steps from start_scheduler, with initial
cache st0 (at process start only the externally populated config entry
may be present; the market key is never pre-populated). -/
def sched_run (envs : ℕ → Env) (st0 : CacheState) : ℕ → SchedState
  | 0 => ⟨.wMarket, st0⟩
  | n + 1 => sched_step (envs n) (sched_run envs st0 n)

/-- Claim C3, counterexample: with the warm-up market fetch failing, the
warm-up market phase completes (the task has moved on to the yields
phase) while a read of the market key still yields absent — refuting the
claimed biconditional that the read is non-absent exactly once the market
phase has completed. -/
theorem warmup_read_counterexample :
    (sched_run (fun _ => envC10) [] 1).pc = SchedPC.wYields
    ∧ (cache_get (sched_run (fun _ => envC10) [] 1).cache envC10.now
        CACHE_KEYS.MARKET_SUMMARY).1 = none :=
  ⟨rfl, rfl⟩

/-- Claim C3, amended: the task started by start() performs one warm-up
cycle market, then yields, then daily pack, strictly before the periodic
polling loop begins (unconditionally); and provided the warm-up market
fetches succeed, a read of the market key yields a non-absent value
exactly once the market phase has completed: absent at every instant
before the phase, and the freshly normalized snapshot right after it
(within its TTL window). -/
theorem warmup_order_and_market_read (envs : ℕ → Env) (st0 : CacheState)
    (h0 : dictGet st0 CACHE_KEYS.MARKET_SUMMARY = none)
    (ns cs bs : List RawRow)
    (hn : (envs 0).fetch912 "arg_notes" = .ok ns)
    (hc : (envs 0).fetch912 "arg_corp" = .ok cs)
    (hb : (envs 0).fetch912 "arg_bonds" = .ok bs) :
    (sched_run envs st0 0).pc = SchedPC.wMarket
    ∧ (sched_run envs st0 1).pc = SchedPC.wYields
    ∧ (sched_run envs st0 2).pc = SchedPC.wDaily
    ∧ (∀ n : ℕ, 3 ≤ n → (sched_run envs st0 n).pc = SchedPC.looping)
    ∧ (sched_run envs st0 1).cache = refresh_market (envs 0) st0
    ∧ (sched_run envs st0 2).cache = refresh_yields (envs 1) (refresh_market (envs 0) st0)
    ∧ (sched_run envs st0 3).cache
        = refresh_daily_pack (envs 2) (refresh_yields (envs 1) (refresh_market (envs 0) st0))
    ∧ (∀ t : ℚ, (cache_get (sched_run envs st0 0).cache t CACHE_KEYS.MARKET_SUMMARY).1 = none)
    ∧ (∀ t : ℚ, t ≤ (envs 0).now + TTL_MARKET →
        (cache_get (sched_run envs st0 1).cache t CACHE_KEYS.MARKET_SUMMARY).1
          = some (.market (market_payload (envs 0) ns cs bs))) := by
  have hloop : ∀ m : ℕ, (sched_run envs st0 (3 + m)).pc = SchedPC.looping := by
    intro m
    induction m with
    | zero => rfl
    | succ k ih =>
        show (sched_step (envs (3 + k)) (sched_run envs st0 (3 + k))).pc = SchedPC.looping
        simp [sched_step, ih]
  have hmarket : refresh_market (envs 0) st0
      = cache_set st0 (envs 0).now CACHE_KEYS.MARKET_SUMMARY
          (.market (market_payload (envs 0) ns cs bs)) TTL_MARKET := by
    simp [refresh_market, hn, hc, hb]
  refine ⟨rfl, rfl, rfl, fun n hn3 => ?_, rfl, rfl, rfl, fun t => ?_, fun t ht => ?_⟩
  · obtain ⟨m, rfl⟩ := Nat.exists_eq_add_of_le hn3
    exact hloop m
  · show (cache_get st0 t CACHE_KEYS.MARKET_SUMMARY).1 = none
    simp [cache_get, h0]
  · show (cache_get (refresh_market (envs 0) st0) t CACHE_KEYS.MARKET_SUMMARY).1
        = some (.market (market_payload (envs 0) ns cs bs))
    rw [hmarket]
    have hnot : ¬ ((envs 0).now + TTL_MARKET < t) := not_lt.mpr ht
    simp [cache_get, cache_set, dictGet_insert_self, hnot]

/-- The C3 witness environment: market fetches succeed with one raw row. -/
def envC3 : Env :=
  { envC10 with fetch912 := fun _ => .ok [{ symbol := some "al30", c := some (.jnum 5), extra := [] }] }

/-- Witness for C3 at concrete inputs: empty initial cache, succeeding
market fetches; phase order holds, the market key is absent before the
market phase and holds the normalized snapshot right after it. -/
theorem warmup_order_and_market_read_witness :
    (sched_run (fun _ => envC3) [] 1).pc = SchedPC.wYields
    ∧ (sched_run (fun _ => envC3) [] 3).pc = SchedPC.looping
    ∧ (cache_get (sched_run (fun _ => envC3) [] 0).cache 0 CACHE_KEYS.MARKET_SUMMARY).1 = none
    ∧ (cache_get (sched_run (fun _ => envC3) [] 1).cache 0 CACHE_KEYS.MARKET_SUMMARY).1
      = some (.market (market_payload envC3
          [{ symbol := some "al30", c := some (.jnum 5), extra := [] }]
          [{ symbol := some "al30", c := some (.jnum 5), extra := [] }]
          [{ symbol := some "al30", c := some (.jnum 5), extra := [] }])) := by
  obtain ⟨-, h1, -, hl, -, -, -, habs, hread⟩ :=
    warmup_order_and_market_read (fun _ => envC3) [] rfl
      [{ symbol := some "al30", c := some (.jnum 5), extra := [] }]
      [{ symbol := some "al30", c := some (.jnum 5), extra := [] }]
      [{ symbol := some "al30", c := some (.jnum 5), extra := [] }]
      rfl rfl rfl
  refine ⟨h1, hl 3 (by norm_num), habs 0, hread 0 ?_⟩
  show (0 : ℚ) ≤ envC3.now + TTL_MARKET
  norm_num [envC3, envC10, TTL_MARKET]

/-- Worker status in the bounded-pool protocol (the async with _sema
block around the authenticated calls): waiting to acquire, holding a slot
between calls, inside an in-flight call, or finished after releasing.
The slot is released when the with-block exits, on success and on
exception alike. -/
inductive WStat where
  | waiting
  | idleSlot
  | inCall
  | finished
  deriving DecidableEq

/-- The pool: the semaphore counter and the per-worker statuses. -/
structure PoolState where
  sema : ℕ
  workers : List WStat

/-- Interleaved execution of a fan-out against the semaphore
(scheduler.py lines 26-27 and the worker bodies): acquire requires a free
slot and decrements the counter; calls begin and end only while the slot
is held (each worker has at most one call in flight at a time, the pricer
worker issuing its six calls sequentially); release increments the
counter again regardless of how the call ended. -/
inductive PoolStep : PoolState → PoolState → Prop where
  | acquire (s : PoolState) (i : ℕ) (hw : s.workers[i]? = some .waiting)
      (hs : 0 < s.sema) : PoolStep s ⟨s.sema - 1, s.workers.set i .idleSlot⟩
  | beginCall (s : PoolState) (i : ℕ) (hw : s.workers[i]? = some .idleSlot) :
      PoolStep s ⟨s.sema, s.workers.set i .inCall⟩
  | endCall (s : PoolState) (i : ℕ) (hw : s.workers[i]? = some .inCall) :
      PoolStep s ⟨s.sema, s.workers.set i .idleSlot⟩
  | release (s : PoolState) (i : ℕ) (hw : s.workers[i]? = some .idleSlot) :
      PoolStep s ⟨s.sema + 1, s.workers.set i .finished⟩

/-- Initial pool: the semaphore at DOCTA_MAX_CONCURRENCY = 8 and n
fan-out workers (one per symbol) not yet through the gate. -/
def initPool (n : ℕ) : PoolState := ⟨DOCTA_MAX_CONCURRENCY, List.replicate n .waiting⟩

/-- States the fan-out can reach through any interleaving. -/
inductive PoolReachable (n : ℕ) : PoolState → Prop where
  | init : PoolReachable n (initPool n)
  | step {s s2 : PoolState} : PoolReachable n s → PoolStep s s2 → PoolReachable n s2

def holdWeight : WStat → ℕ
  | .idleSlot => 1
  | .inCall => 1
  | _ => 0

def inCallWeight : WStat → ℕ
  | .inCall => 1
  | _ => 0

def wsum (g : WStat → ℕ) (ws : List WStat) : ℕ := (ws.map g).sum

/-- The number of authenticated calls currently in flight. -/
def inFlight (s : PoolState) : ℕ := wsum inCallWeight s.workers

theorem wsum_set (g : WStat → ℕ) :
    ∀ (ws : List WStat) (i : ℕ) (x y : WStat), ws[i]? = some x →
      wsum g (ws.set i y) + g x = wsum g ws + g y := by
  intro ws
  induction ws with
  | nil => intro i x y h; simp at h
  | cons w rest ih =>
      intro i x y h
      cases i with
      | zero =>
          simp at h
          subst h
          simp [wsum]
          omega
      | succ j =>
          simp at h
          have hj := ih j x y h
          simp [wsum] at hj ⊢
          omega

theorem wsum_inCall_le_hold (ws : List WStat) :
    wsum inCallWeight ws ≤ wsum holdWeight ws := by
  induction ws with
  | nil => simp [wsum]
  | cons w rest ih =>
      have hw : inCallWeight w ≤ holdWeight w := by
        cases w <;> simp [inCallWeight, holdWeight]
      simp [wsum] at ih ⊢
      omega

theorem pool_invariant {n : ℕ} {s : PoolState} (h : PoolReachable n s) :
    s.sema + wsum holdWeight s.workers = DOCTA_MAX_CONCURRENCY := by
  induction h with
  | init =>
      simp [initPool, wsum, List.map_replicate, holdWeight]
  | @step s s2 hreach hstep ih =>
      cases hstep with
      | acquire i hw hs =>
          have hset := wsum_set holdWeight s.workers i .waiting .idleSlot hw
          simp [holdWeight] at hset ⊢
          omega
      | beginCall i hw =>
          have hset := wsum_set holdWeight s.workers i .idleSlot .inCall hw
          simp [holdWeight] at hset ⊢
          omega
      | endCall i hw =>
          have hset := wsum_set holdWeight s.workers i .inCall .idleSlot hw
          simp [holdWeight] at hset ⊢
          omega
      | release i hw =>
          have hset := wsum_set holdWeight s.workers i .idleSlot .finished hw
          simp [holdWeight] at hset ⊢
          omega

/-- Claim C8: every fan-out worker acquires a slot of the bounded pool
(capacity DOCTA_MAX_CONCURRENCY = 8) before calling out and releases it
afterwards regardless of success or failure, so in every reachable
interleaving of any number of workers (also more than 8) at most 8
authenticated calls are in flight at any instant. -/
theorem bounded_concurrency {n : ℕ} {s : PoolState} (h : PoolReachable n s) :
    inFlight s ≤ DOCTA_MAX_CONCURRENCY := by
  have hinv := pool_invariant h
  have hle := wsum_inCall_le_hold s.workers
  unfold inFlight
  omega

/-- Witness for C8: nine workers (more than the capacity), worker 0 has
acquired and is in a call; the reachable state satisfies the bound. -/
theorem bounded_concurrency_witness :
    inFlight ⟨DOCTA_MAX_CONCURRENCY - 1,
      ((List.replicate 9 WStat.waiting).set 0 .idleSlot).set 0 .inCall⟩
      ≤ DOCTA_MAX_CONCURRENCY :=
  bounded_concurrency
    (PoolReachable.step
      (PoolReachable.step PoolReachable.init
        (PoolStep.acquire (initPool 9) 0 (by decide) (by decide)))
      (PoolStep.beginCall _ 0 (by decide)))

end BonosApi
